import Mathlib

/-!
Address arithmetic of `lab2/kern/mm/mmu.h`.

A shallow embedding of the paging definitions of `mmu.h` (riscv64-ucore): the Sv32
style two-level decomposition (`PDX`, `PTX`, `PGOFF`, `PPN`, `PGADDR`,
`PTE_ADDR`), the Sv39 three-level decomposition (`SV39_VPN0..2`, `SV39_VPN`,
`SV39_PGADDR`, `SV39_PTE_ADDR`) and the page-table-entry flag vocabulary.

Machine words are natural numbers; every C operation that can leave the range
of `uintptr_t` is followed by an explicit reduction modulo `2 ^ XLEN`.
-/

namespace Mmu

/-! ## Machine words -/

/-- Modelled from the spec: the width in bits of `uintptr_t`. The type comes from
`defs.h`, which is not among the sources; on the riscv64 target of this kernel it is
an unsigned 64-bit integer. -/
def XLEN : Nat := 64

/-- The cast `(uintptr_t)(x)`. -/
def toUintptr (x : Nat) : Nat := x % 2 ^ XLEN

/-- The C operator `x << n` on a `uintptr_t` operand: bits shifted past the top are lost. -/
def shl (x n : Nat) : Nat := (x <<< n) % 2 ^ XLEN

/-- The C expression `~k` for a non-negative `int` constant `k`, after the usual
arithmetic conversion to `uintptr_t` (sign extension): all bits set except those of `k`. -/
def notInt (k : Nat) : Nat := 2 ^ XLEN - 1 - k

/-! ## Two-level scheme: constants (`mmu.h` lines 46-57) -/

def NPDEENTRY : Nat := 1024
def NPTEENTRY : Nat := 1024
def PGSIZE : Nat := 4096
def PGSHIFT : Nat := 12
def PTSIZE : Nat := PGSIZE * NPTEENTRY
def PTSHIFT : Nat := 22
def PTXSHIFT : Nat := 12
def PDXSHIFT : Nat := 22
def PTE_PPN_SHIFT : Nat := 10

/-! ## Two-level scheme: address operations (`mmu.h` lines 27-44) -/

/-- Header line `#define PDX(la) ((((uintptr_t)(la)) >> PDXSHIFT) & 0x3FF)` -/
def PDX (la : Nat) : Nat := (toUintptr la >>> PDXSHIFT) &&& 0x3FF

/-- Header line `#define PTX(la) ((((uintptr_t)(la)) >> PTXSHIFT) & 0x3FF)` -/
def PTX (la : Nat) : Nat := (toUintptr la >>> PTXSHIFT) &&& 0x3FF

/-- Header line `#define PPN(la) (((uintptr_t)(la)) >> PTXSHIFT)` -/
def PPN (la : Nat) : Nat := toUintptr la >>> PTXSHIFT

/-- Header line `#define PGOFF(la) (((uintptr_t)(la)) & 0xFFF)` -/
def PGOFF (la : Nat) : Nat := toUintptr la &&& 0xFFF

/-- Header line `#define PGADDR(d, t, o) ((uintptr_t)((d) << PDXSHIFT | (t) << PTXSHIFT | (o)))`
with `uintptr_t` arguments: `<<` binds tighter than `|`, and each shift is taken in
`uintptr_t`. -/
def PGADDR (d t o : Nat) : Nat :=
  toUintptr (((shl d PDXSHIFT) ||| (shl t PTXSHIFT)) ||| o)

/-- Header line `#define PTE_ADDR(pte) (((uintptr_t)(pte) & ~0x3FF) << 2)` -/
def PTE_ADDR (pte : Nat) : Nat := shl (toUintptr pte &&& notInt 0x3FF) 2

/-- Header line `#define PDE_ADDR(pde) PTE_ADDR(pde)` -/
def PDE_ADDR (pde : Nat) : Nat := PTE_ADDR pde

/-! ## Sv39: constants (`mmu.h` lines 70-81)

`SV39_PTSIZE` is left out: its body names `SV39NENTRY`, which the header never defines. -/

def SV39_NENTRY : Nat := 512
def SV39_PGSIZE : Nat := 4096
def SV39_PGSHIFT : Nat := 12
def SV39_PTSHIFT : Nat := 21
def SV39_VPN0SHIFT : Nat := 12
def SV39_VPN1SHIFT : Nat := 21
def SV39_VPN2SHIFT : Nat := 30
def SV39_PTE_PPN_SHIFT : Nat := 10

/-! ## Sv39: address operations (`mmu.h` lines 83-97) -/

/-- Header line `#define SV39_VPN0(la) ((((uintptr_t)(la)) >> SV39_VPN0SHIFT) & 0x1FF)` -/
def SV39_VPN0 (la : Nat) : Nat := (toUintptr la >>> SV39_VPN0SHIFT) &&& 0x1FF

/-- Header line `#define SV39_VPN1(la) ((((uintptr_t)(la)) >> SV39_VPN1SHIFT) & 0x1FF)` -/
def SV39_VPN1 (la : Nat) : Nat := (toUintptr la >>> SV39_VPN1SHIFT) &&& 0x1FF

/-- Header line `#define SV39_VPN2(la) ((((uintptr_t)(la)) >> SV39_VPN2SHIFT) & 0x1FF)` -/
def SV39_VPN2 (la : Nat) : Nat := (toUintptr la >>> SV39_VPN2SHIFT) &&& 0x1FF

/-- Header line `#define SV39_VPN(la, n) ((((uintptr_t)(la)) >> 12 >> (9 * n)) & 0x1FF)` for a
level value `n`. A shift count of `XLEN` or more has no defined result in C, so the
result is `none` there. -/
def SV39_VPN (la n : Nat) : Option Nat :=
  if 9 * n < XLEN then some (((toUintptr la >>> 12) >>> (9 * n)) &&& 0x1FF) else none

/-- Header line `#define SV39_PGADDR(v2, v1, v0, o) ((uintptr_t)((v2) << SV39_VPN2SHIFT |
(v1) << SV39_VPN1SHIFT | (v0) << SV39_VPN0SHIFT | (o)))` with `uintptr_t` arguments. -/
def SV39_PGADDR (v2 v1 v0 o : Nat) : Nat :=
  toUintptr ((((shl v2 SV39_VPN2SHIFT) ||| (shl v1 SV39_VPN1SHIFT)) |||
    (shl v0 SV39_VPN0SHIFT)) ||| o)

/-- Header line `#define SV39_PTE_ADDR(pte) (((uintptr_t)(pte) & ~0x1FF) << 3)` -/
def SV39_PTE_ADDR (pte : Nat) : Nat := shl (toUintptr pte &&& notInt 0x1FF) 3

def SV39_PT0 : Nat := 0
def SV39_PT1 : Nat := 1
def SV39_PT2 : Nat := 2

/-! ## Page table entry fields (`mmu.h` lines 99-117) -/

def PTE_V : Nat := 0x001
def PTE_R : Nat := 0x002
def PTE_W : Nat := 0x004
def PTE_X : Nat := 0x008
def PTE_U : Nat := 0x010
def PTE_G : Nat := 0x020
def PTE_A : Nat := 0x040
def PTE_D : Nat := 0x080
def PTE_SOFT : Nat := 0x300

def PAGE_TABLE_DIR : Nat := PTE_V
def READ_ONLY : Nat := PTE_R ||| PTE_V
def READ_WRITE : Nat := PTE_R ||| PTE_W ||| PTE_V
def EXEC_ONLY : Nat := PTE_X ||| PTE_V
def READ_EXEC : Nat := PTE_R ||| PTE_X ||| PTE_V
def READ_WRITE_EXEC : Nat := PTE_R ||| PTE_W ||| PTE_X ||| PTE_V
def PTE_USER : Nat := PTE_R ||| PTE_W ||| PTE_X ||| PTE_U ||| PTE_V

/-! ## The flag vocabulary as data

The comments of lines 100-107 name the eight single-bit flags; lines 110-117 name seven
unions of them. -/

/-- The eight single-bit flags, named as in the comments of `mmu.h` lines 100-107. -/
inductive Flag where
  | Valid | Read | Write | Execute | User | Global | Accessed | Dirty
  deriving DecidableEq, Repr

/-- The header constant that carries each flag. -/
def Flag.mask : Flag → Nat
  | .Valid => PTE_V
  | .Read => PTE_R
  | .Write => PTE_W
  | .Execute => PTE_X
  | .User => PTE_U
  | .Global => PTE_G
  | .Accessed => PTE_A
  | .Dirty => PTE_D

/-- The seven pre-composed permission sets of `mmu.h` lines 110-117. -/
inductive PermSet where
  | PageTableDirectory | ReadOnly | ReadWrite | ExecuteOnly | ReadExecute
  | ReadWriteExecute | UserAll
  deriving DecidableEq, Repr

/-- The header constant that carries each pre-composed set. -/
def PermSet.value : PermSet → Nat
  | .PageTableDirectory => PAGE_TABLE_DIR
  | .ReadOnly => READ_ONLY
  | .ReadWrite => READ_WRITE
  | .ExecuteOnly => EXEC_ONLY
  | .ReadExecute => READ_EXEC
  | .ReadWriteExecute => READ_WRITE_EXEC
  | .UserAll => PTE_USER

/-- The table of the specification (section 4.3): the flags listed for each pre-composed
set. This follows the specification, not the header, and is what `PermSet.value` is
compared with. -/
def PermSet.listed : PermSet → List Flag
  | .PageTableDirectory => [.Valid]
  | .ReadOnly => [.Valid, .Read]
  | .ReadWrite => [.Valid, .Read, .Write]
  | .ExecuteOnly => [.Valid, .Execute]
  | .ReadExecute => [.Valid, .Read, .Execute]
  | .ReadWriteExecute => [.Valid, .Read, .Write, .Execute]
  | .UserAll => [.Valid, .Read, .Write, .Execute, .User]

/-- The bitwise OR (`|`) of the constants of a collection of flags, the way lines 110-117
build a permission set. -/
def orFlags : List Flag → Nat
  | [] => 0
  | f :: fs => f.mask ||| orFlags fs

/-! ## Arithmetic reading of the word operations -/

theorem lor_eq_add_of_dvd {a b k : Nat} (ha : 2 ^ k ∣ a) (hb : b < 2 ^ k) :
    a ||| b = a + b := by
  obtain ⟨c, rfl⟩ := ha
  exact (Nat.mul_add_lt_is_or hb c).symm

theorem and_mask10 (x : Nat) : x &&& 0x3FF = x % 1024 :=
  Nat.and_pow_two_sub_one_eq_mod x 10

theorem and_mask9 (x : Nat) : x &&& 0x1FF = x % 512 :=
  Nat.and_pow_two_sub_one_eq_mod x 9

theorem and_mask12 (x : Nat) : x &&& 0xFFF = x % 4096 :=
  Nat.and_pow_two_sub_one_eq_mod x 12

theorem PDX_eq (la : Nat) : PDX la = la % 2 ^ 64 / 2 ^ 22 % 1024 := by
  simp only [PDX, toUintptr, XLEN, PDXSHIFT, and_mask10, Nat.shiftRight_eq_div_pow]

theorem PTX_eq (la : Nat) : PTX la = la % 2 ^ 64 / 2 ^ 12 % 1024 := by
  simp only [PTX, toUintptr, XLEN, PTXSHIFT, and_mask10, Nat.shiftRight_eq_div_pow]

theorem PGOFF_eq (la : Nat) : PGOFF la = la % 2 ^ 64 % 4096 := by
  simp only [PGOFF, toUintptr, XLEN, and_mask12]

theorem SV39_VPN0_eq (la : Nat) : SV39_VPN0 la = la % 2 ^ 64 / 2 ^ 12 % 512 := by
  simp only [SV39_VPN0, toUintptr, XLEN, SV39_VPN0SHIFT, and_mask9, Nat.shiftRight_eq_div_pow]

theorem SV39_VPN1_eq (la : Nat) : SV39_VPN1 la = la % 2 ^ 64 / 2 ^ 21 % 512 := by
  simp only [SV39_VPN1, toUintptr, XLEN, SV39_VPN1SHIFT, and_mask9, Nat.shiftRight_eq_div_pow]

theorem SV39_VPN2_eq (la : Nat) : SV39_VPN2 la = la % 2 ^ 64 / 2 ^ 30 % 512 := by
  simp only [SV39_VPN2, toUintptr, XLEN, SV39_VPN2SHIFT, and_mask9, Nat.shiftRight_eq_div_pow]

/-- On in-range fields the three parts of `PGADDR` do not overlap, so the ORs are sums. -/
theorem PGADDR_eq {d t o : Nat} (hd : d < 1024) (ht : t < 1024) (ho : o < 4096) :
    PGADDR d t o = d * 2 ^ 22 + t * 2 ^ 12 + o := by
  have h1 : (d <<< 22) % 2 ^ 64 = d * 2 ^ 22 := by
    rw [Nat.shiftLeft_eq]; omega
  have h2 : (t <<< 12) % 2 ^ 64 = t * 2 ^ 12 := by
    rw [Nat.shiftLeft_eq]; omega
  have h3 : d * 2 ^ 22 ||| t * 2 ^ 12 = d * 2 ^ 22 + t * 2 ^ 12 :=
    lor_eq_add_of_dvd (k := 22) (Dvd.intro_left d rfl) (by omega)
  have h4 : (d * 2 ^ 22 + t * 2 ^ 12) ||| o = d * 2 ^ 22 + t * 2 ^ 12 + o :=
    lor_eq_add_of_dvd (k := 12) ⟨d * 2 ^ 10 + t, by ring⟩ ho
  simp only [PGADDR, toUintptr, shl, XLEN, PDXSHIFT, PTXSHIFT, h1, h2, h3, h4]
  omega

/-- Decomposing a word and composing it again keeps exactly its low 32 bits. -/
theorem PGADDR_decompose (va : Nat) :
    PGADDR (PDX va) (PTX va) (PGOFF va) = va % 2 ^ 32 := by
  have hd : PDX va < 1024 := by rw [PDX_eq]; omega
  have ht : PTX va < 1024 := by rw [PTX_eq]; omega
  have ho : PGOFF va < 4096 := by rw [PGOFF_eq]; omega
  rw [PGADDR_eq hd ht ho, PDX_eq, PTX_eq, PGOFF_eq]
  omega

/-- On in-range fields the four parts of `SV39_PGADDR` do not overlap. -/
theorem SV39_PGADDR_eq {v2 v1 v0 o : Nat} (h2 : v2 < 512) (h1 : v1 < 512) (h0 : v0 < 512)
    (ho : o < 4096) :
    SV39_PGADDR v2 v1 v0 o = v2 * 2 ^ 30 + v1 * 2 ^ 21 + v0 * 2 ^ 12 + o := by
  have e2 : (v2 <<< 30) % 2 ^ 64 = v2 * 2 ^ 30 := by
    rw [Nat.shiftLeft_eq]; omega
  have e1 : (v1 <<< 21) % 2 ^ 64 = v1 * 2 ^ 21 := by
    rw [Nat.shiftLeft_eq]; omega
  have e0 : (v0 <<< 12) % 2 ^ 64 = v0 * 2 ^ 12 := by
    rw [Nat.shiftLeft_eq]; omega
  have a1 : v2 * 2 ^ 30 ||| v1 * 2 ^ 21 = v2 * 2 ^ 30 + v1 * 2 ^ 21 :=
    lor_eq_add_of_dvd (k := 30) (Dvd.intro_left v2 rfl) (by omega)
  have a0 : (v2 * 2 ^ 30 + v1 * 2 ^ 21) ||| v0 * 2 ^ 12
      = v2 * 2 ^ 30 + v1 * 2 ^ 21 + v0 * 2 ^ 12 :=
    lor_eq_add_of_dvd (k := 21) ⟨v2 * 2 ^ 9 + v1, by ring⟩ (by omega)
  have ao : (v2 * 2 ^ 30 + v1 * 2 ^ 21 + v0 * 2 ^ 12) ||| o
      = v2 * 2 ^ 30 + v1 * 2 ^ 21 + v0 * 2 ^ 12 + o :=
    lor_eq_add_of_dvd (k := 12) ⟨v2 * 2 ^ 18 + v1 * 2 ^ 9 + v0, by ring⟩ ho
  simp only [SV39_PGADDR, toUintptr, shl, XLEN, SV39_VPN2SHIFT, SV39_VPN1SHIFT,
    SV39_VPN0SHIFT, e2, e1, e0, a1, a0, ao]
  omega

/-- Decomposing a word by the Sv39 extractors and composing it again keeps exactly its
low 39 bits. -/
theorem SV39_PGADDR_decompose (va : Nat) :
    SV39_PGADDR (SV39_VPN2 va) (SV39_VPN1 va) (SV39_VPN0 va) (PGOFF va) = va % 2 ^ 39 := by
  have h2 : SV39_VPN2 va < 512 := by rw [SV39_VPN2_eq]; omega
  have h1 : SV39_VPN1 va < 512 := by rw [SV39_VPN1_eq]; omega
  have h0 : SV39_VPN0 va < 512 := by rw [SV39_VPN0_eq]; omega
  have ho : PGOFF va < 4096 := by rw [PGOFF_eq]; omega
  rw [SV39_PGADDR_eq h2 h1 h0 ho, SV39_VPN2_eq, SV39_VPN1_eq, SV39_VPN0_eq, PGOFF_eq]
  omega

/-- Masking a 64-bit word with the complement of its low `k` bits clears exactly them. -/
theorem and_high_mask {x k : Nat} (hx : x < 2 ^ 64) (hk : k ≤ 64) :
    x &&& ((2 ^ (64 - k) - 1) <<< k) = x / 2 ^ k * 2 ^ k := by
  rw [← Nat.shiftRight_eq_div_pow, ← Nat.shiftLeft_eq]
  apply Nat.eq_of_testBit_eq
  intro i
  simp only [Nat.testBit_and, Nat.testBit_shiftLeft, Nat.testBit_shiftRight,
    Nat.testBit_two_pow_sub_one]
  by_cases hi : k ≤ i
  · have e : k + (i - k) = i := by omega
    rw [e]
    by_cases hi2 : i < 64
    · have : i - k < 64 - k := by omega
      simp [hi, this]
    · have hb : x.testBit i = false :=
        Nat.testBit_lt_two_pow (Nat.lt_of_lt_of_le hx (Nat.pow_le_pow_right (by decide) (by omega)))
      simp [hb]
  · simp [hi]

theorem notInt_0x3FF : notInt 0x3FF = (2 ^ (64 - 10) - 1) <<< 10 := by decide

theorem notInt_0x1FF : notInt 0x1FF = (2 ^ (64 - 9) - 1) <<< 9 := by decide

theorem PTE_ADDR_eq (pte : Nat) : PTE_ADDR pte = pte % 2 ^ 64 / 1024 * 4096 % 2 ^ 64 := by
  have hx : pte % 2 ^ 64 < 2 ^ 64 := Nat.mod_lt _ (by decide)
  have hm := and_high_mask hx (by decide : 10 ≤ 64)
  unfold PTE_ADDR shl toUintptr
  rw [notInt_0x3FF]
  simp only [XLEN]
  rw [hm, Nat.shiftLeft_eq]
  omega

theorem SV39_PTE_ADDR_eq (pte : Nat) :
    SV39_PTE_ADDR pte = pte % 2 ^ 64 / 512 * 4096 % 2 ^ 64 := by
  have hx : pte % 2 ^ 64 < 2 ^ 64 := Nat.mod_lt _ (by decide)
  have hm := and_high_mask hx (by decide : 9 ≤ 64)
  unfold SV39_PTE_ADDR shl toUintptr
  rw [notInt_0x1FF]
  simp only [XLEN]
  rw [hm, Nat.shiftLeft_eq]
  omega

/-! ## Round trips and ranges of the extractors -/

/-- C1 (counterexample): the Scheme32 round trip does not hold for every 64-bit word.
At `va = 0x100000000` (bit 32 set) all three extractors return 0, so `PGADDR` rebuilds
0 and not `va`. -/
theorem C1_roundtrip32_fails_above_32_bits :
    0x100000000 < 2 ^ XLEN ∧
    PDX 0x100000000 = 0 ∧ PTX 0x100000000 = 0 ∧ PGOFF 0x100000000 = 0 ∧
    PGADDR (PDX 0x100000000) (PTX 0x100000000) (PGOFF 0x100000000) = 0 ∧
    PGADDR (PDX 0x100000000) (PTX 0x100000000) (PGOFF 0x100000000) ≠ 0x100000000 := by
  decide

/-- C1 (amended): for every word `va` below `2 ^ 32`, that is every address of the
10+10+12 bit layout, `PGADDR(PDX(va), PTX(va), PGOFF(va))` is `va` again. -/
theorem C1_roundtrip32_of_lt (va : Nat) (h : va < 2 ^ 32) :
    PGADDR (PDX va) (PTX va) (PGOFF va) = va := by
  rw [PGADDR_decompose]
  exact Nat.mod_eq_of_lt h

/-- C1 (witness): the amended round trip at `va = 0x00403000`. -/
theorem C1_roundtrip32_of_lt_witness :
    0x00403000 < 2 ^ 32 ∧
    PGADDR (PDX 0x00403000) (PTX 0x00403000) (PGOFF 0x00403000) = 0x00403000 :=
  ⟨by decide, C1_roundtrip32_of_lt 0x00403000 (by decide)⟩

/-- C2 (counterexample): the Scheme39 round trip does not hold for every 64-bit word.
At `va = 0x8000000000` (bit 39 set) the four extractors return 0, so `SV39_PGADDR`
rebuilds 0 and not `va`. -/
theorem C2_roundtrip39_fails_above_39_bits :
    0x8000000000 < 2 ^ XLEN ∧
    SV39_VPN2 0x8000000000 = 0 ∧ SV39_VPN1 0x8000000000 = 0 ∧
    SV39_VPN0 0x8000000000 = 0 ∧ PGOFF 0x8000000000 = 0 ∧
    SV39_PGADDR (SV39_VPN2 0x8000000000) (SV39_VPN1 0x8000000000)
      (SV39_VPN0 0x8000000000) (PGOFF 0x8000000000) ≠ 0x8000000000 := by
  decide

/-- C2 (amended): for every word `va` below `2 ^ 39`, that is every address of the
9+9+9+12 bit layout, `SV39_PGADDR(SV39_VPN2(va), SV39_VPN1(va), SV39_VPN0(va), PGOFF(va))`
is `va` again. -/
theorem C2_roundtrip39_of_lt (va : Nat) (h : va < 2 ^ 39) :
    SV39_PGADDR (SV39_VPN2 va) (SV39_VPN1 va) (SV39_VPN0 va) (PGOFF va) = va := by
  rw [SV39_PGADDR_decompose]
  exact Nat.mod_eq_of_lt h

/-- C2 (witness): the amended round trip at `va = 0x4020001000`. -/
theorem C2_roundtrip39_of_lt_witness :
    0x4020001000 < 2 ^ 39 ∧
    SV39_PGADDR (SV39_VPN2 0x4020001000) (SV39_VPN1 0x4020001000)
      (SV39_VPN0 0x4020001000) (PGOFF 0x4020001000) = 0x4020001000 :=
  ⟨by decide, C2_roundtrip39_of_lt 0x4020001000 (by decide)⟩

/-- C3: every extractor result is in range, whatever the word: `PDX` and `PTX` are below
1024, `PGOFF` is below 4096, and `SV39_VPN0`, `SV39_VPN1`, `SV39_VPN2` are below 512. -/
theorem C3_extractors_in_range (va : Nat) :
    PDX va < NPDEENTRY ∧ PTX va < NPTEENTRY ∧ PGOFF va < PGSIZE ∧
    SV39_VPN0 va < SV39_NENTRY ∧ SV39_VPN1 va < SV39_NENTRY ∧ SV39_VPN2 va < SV39_NENTRY := by
  rw [PDX_eq, PTX_eq, PGOFF_eq, SV39_VPN0_eq, SV39_VPN1_eq, SV39_VPN2_eq]
  simp only [NPDEENTRY, NPTEENTRY, PGSIZE, SV39_NENTRY]
  omega

/-- C4: the generic Sv39 extractor agrees with the named ones: `SV39_VPN(va, 0)`,
`SV39_VPN(va, 1)`, `SV39_VPN(va, 2)` are defined and equal `SV39_VPN0(va)`,
`SV39_VPN1(va)`, `SV39_VPN2(va)`. -/
theorem C4_generic_vpn_agrees (va : Nat) :
    SV39_VPN va 0 = some (SV39_VPN0 va) ∧
    SV39_VPN va 1 = some (SV39_VPN1 va) ∧
    SV39_VPN va 2 = some (SV39_VPN2 va) := by
  refine ⟨?_, ?_, ?_⟩
  · simp [SV39_VPN, SV39_VPN0, SV39_VPN0SHIFT, XLEN]
  · simp [SV39_VPN, SV39_VPN1, SV39_VPN1SHIFT, XLEN, ← Nat.shiftRight_add]
  · simp [SV39_VPN, SV39_VPN2, SV39_VPN2SHIFT, XLEN, ← Nat.shiftRight_add]

/-! ## Frames inside page table entries -/

/-- A word with no bit at position 10 or above is below 1024. -/
theorem lt_1024_of_and_notInt {p : Nat} (hp : p < 2 ^ XLEN) (hmask : p &&& notInt 0x3FF = 0) :
    p < 1024 := by
  have hp64 : p < 2 ^ 64 := hp
  rw [notInt_0x3FF, and_high_mask hp64 (by decide : 10 ≤ 64)] at hmask
  omega

/-- The entry `(F << 10) | p` is the sum `F * 1024 + p` when the frame number fits the
54 bits above the flags and `p` stays in the low 10 bits. -/
theorem entry_eq_add {F p : Nat} (hF : F < 2 ^ 54) (hp : p < 1024) :
    shl F 10 ||| p = F * 1024 + p := by
  have e : shl F 10 = F * 2 ^ 10 := by
    unfold shl
    rw [Nat.shiftLeft_eq]
    simp only [XLEN]
    omega
  rw [e, lor_eq_add_of_dvd (k := 10) (Dvd.intro_left F rfl) (by omega)]
  omega

/-- C5: Scheme32 frame re-alignment. For every frame number `F < 2 ^ 52` and every
permission word `p` with `p & ~0x3FF == 0`, `PTE_ADDR((F << PTE_PPN_SHIFT) | p)` is
`F << 12`, the byte address `F * PGSIZE` of frame `F`. -/
theorem C5_pte_addr_recovers_frame (F p : Nat) (hF : F < 2 ^ 52) (hp : p < 2 ^ XLEN)
    (hmask : p &&& notInt 0x3FF = 0) :
    PTE_ADDR (shl F PTE_PPN_SHIFT ||| p) = shl F 12 ∧ shl F 12 = F * PGSIZE := by
  have hp10 : p < 1024 := lt_1024_of_and_notInt hp hmask
  have hs : shl F 12 = F * 4096 := by
    unfold shl
    rw [Nat.shiftLeft_eq]
    simp only [XLEN]
    omega
  have he : shl F PTE_PPN_SHIFT ||| p = F * 1024 + p :=
    entry_eq_add (by omega) hp10
  refine ⟨?_, by rw [hs]; rfl⟩
  rw [he, hs, PTE_ADDR_eq]
  omega

/-- C5 (witness): frame 5 with `READ_WRITE` gives the entry `(5 << 10) | 7` and the
address `5 << 12`. -/
theorem C5_pte_addr_recovers_frame_witness :
    (5 < 2 ^ 52 ∧ READ_WRITE < 2 ^ XLEN ∧ READ_WRITE &&& notInt 0x3FF = 0) ∧
    shl 5 PTE_PPN_SHIFT ||| READ_WRITE = (5 <<< 10) ||| 7 ∧
    (PTE_ADDR (shl 5 PTE_PPN_SHIFT ||| READ_WRITE) = shl 5 12 ∧ shl 5 12 = 5 * PGSIZE) :=
  ⟨by decide, by decide,
    C5_pte_addr_recovers_frame 5 READ_WRITE (by decide) (by decide) (by decide)⟩

/-- C6 (the code at the failing input): for frame 5 the entry
`(5 << SV39_PTE_PPN_SHIFT) | READ_WRITE` is `0x1407`; `SV39_PTE_ADDR` turns it into
`5 << 13 = 40960`, which is not the byte address `5 << 12 = 5 * SV39_PGSIZE = 20480` of
frame 5, while `PTE_ADDR` on the same entry does return `20480`. -/
theorem C6_sv39_pte_addr_at_frame_5 :
    shl 5 SV39_PTE_PPN_SHIFT ||| READ_WRITE = 0x1407 ∧
    SV39_PTE_ADDR (shl 5 SV39_PTE_PPN_SHIFT ||| READ_WRITE) = 40960 ∧
    SV39_PTE_ADDR (shl 5 SV39_PTE_PPN_SHIFT ||| READ_WRITE) ≠ shl 5 12 ∧
    shl 5 12 = 5 * SV39_PGSIZE ∧
    PTE_ADDR (shl 5 SV39_PTE_PPN_SHIFT ||| READ_WRITE) = 5 * SV39_PGSIZE := by
  decide

/-- C7: on in-range fields the extractors invert `PGADDR`: for `d < 1024`, `t < 1024`,
`o < 4096`, `PDX(PGADDR(d, t, o)) == d`, `PTX(PGADDR(d, t, o)) == t` and
`PGOFF(PGADDR(d, t, o)) == o`. -/
theorem C7_extractors_invert_pgaddr (d t o : Nat) (hd : d < 1024) (ht : t < 1024)
    (ho : o < 4096) :
    PDX (PGADDR d t o) = d ∧ PTX (PGADDR d t o) = t ∧ PGOFF (PGADDR d t o) = o := by
  rw [PGADDR_eq hd ht ho, PDX_eq, PTX_eq, PGOFF_eq]
  omega

/-- C7 (witness): `PGADDR(1, 3, 0) == 0x00403000`, whose directory index is 1, table
index 3 and offset 0. -/
theorem C7_extractors_invert_pgaddr_witness :
    PGADDR 1 3 0 = 0x00403000 ∧
    (PDX (PGADDR 1 3 0) = 1 ∧ PTX (PGADDR 1 3 0) = 3 ∧ PGOFF (PGADDR 1 3 0) = 0) :=
  ⟨by decide, C7_extractors_invert_pgaddr 1 3 0 (by decide) (by decide) (by decide)⟩

/-- C8: field separation in `(F << 10) | p`. Both schemes place the frame at bit 10
(`PTE_PPN_SHIFT == SV39_PTE_PPN_SHIFT == 10`); for every `p` made only of bits of
`PTE_V .. PTE_D` and `PTE_SOFT` and every frame number `F < 2 ^ 54`, the low 10 bits of the
entry are exactly `p` and its bits from 10 upward are exactly `F`. -/
theorem C8_entry_fields_separate (p F : Nat)
    (hp : p &&& (PTE_V ||| PTE_R ||| PTE_W ||| PTE_X ||| PTE_U ||| PTE_G ||| PTE_A |||
      PTE_D ||| PTE_SOFT) = p)
    (hF : F < 2 ^ 54) :
    PTE_PPN_SHIFT = 10 ∧ SV39_PTE_PPN_SHIFT = 10 ∧ p ≤ 0x3FF ∧
    (shl F PTE_PPN_SHIFT ||| p) &&& 0x3FF = p ∧
    (shl F PTE_PPN_SHIFT ||| p) >>> PTE_PPN_SHIFT = F ∧
    (shl F SV39_PTE_PPN_SHIFT ||| p) &&& 0x3FF = p ∧
    (shl F SV39_PTE_PPN_SHIFT ||| p) >>> SV39_PTE_PPN_SHIFT = F := by
  have hm : (PTE_V ||| PTE_R ||| PTE_W ||| PTE_X ||| PTE_U ||| PTE_G ||| PTE_A |||
      PTE_D ||| PTE_SOFT) = 0x3FF := by decide
  rw [hm, and_mask10] at hp
  have hp10 : p < 1024 := by omega
  have he : shl F 10 ||| p = F * 1024 + p := entry_eq_add hF hp10
  refine ⟨rfl, rfl, by omega, ?_⟩
  simp only [PTE_PPN_SHIFT, SV39_PTE_PPN_SHIFT, he, and_mask10, Nat.shiftRight_eq_div_pow]
  omega

/-- C8 (witness): frame 5 packed with `PTE_USER | PTE_SOFT` keeps both fields apart. -/
theorem C8_entry_fields_separate_witness :
    ((PTE_USER ||| PTE_SOFT) &&& (PTE_V ||| PTE_R ||| PTE_W ||| PTE_X ||| PTE_U ||| PTE_G |||
      PTE_A ||| PTE_D ||| PTE_SOFT) = PTE_USER ||| PTE_SOFT ∧ 5 < 2 ^ 54) ∧
    (PTE_PPN_SHIFT = 10 ∧ SV39_PTE_PPN_SHIFT = 10 ∧ PTE_USER ||| PTE_SOFT ≤ 0x3FF ∧
      (shl 5 PTE_PPN_SHIFT ||| (PTE_USER ||| PTE_SOFT)) &&& 0x3FF = PTE_USER ||| PTE_SOFT ∧
      (shl 5 PTE_PPN_SHIFT ||| (PTE_USER ||| PTE_SOFT)) >>> PTE_PPN_SHIFT = 5 ∧
      (shl 5 SV39_PTE_PPN_SHIFT ||| (PTE_USER ||| PTE_SOFT)) &&& 0x3FF
        = PTE_USER ||| PTE_SOFT ∧
      (shl 5 SV39_PTE_PPN_SHIFT ||| (PTE_USER ||| PTE_SOFT)) >>> SV39_PTE_PPN_SHIFT = 5) :=
  ⟨by decide, C8_entry_fields_separate (PTE_USER ||| PTE_SOFT) 5 (by decide) (by decide)⟩

/-! ## Permission bits -/

/-- C9: each pre-composed permission set contains exactly the flags its table row lists.
For every named set `S` and every flag `f`, `(S & f) != 0` iff `f` is listed for `S`;
`S` is the OR of its listed flags and has no bit outside them; in particular
`READ_WRITE_EXEC` has Read, Write and Execute, and `READ_ONLY` does not have Write. -/
theorem C9_named_sets_match_table :
    (∀ (S : PermSet) (f : Flag), S.value &&& f.mask ≠ 0 ↔ f ∈ S.listed) ∧
    (∀ S : PermSet, S.value = orFlags S.listed ∧ S.value &&& notInt (orFlags S.listed) = 0) ∧
    (READ_WRITE_EXEC &&& PTE_R ≠ 0 ∧ READ_WRITE_EXEC &&& PTE_W ≠ 0 ∧
      READ_WRITE_EXEC &&& PTE_X ≠ 0) ∧
    READ_ONLY &&& PTE_W = 0 := by
  refine ⟨?_, ?_, by decide, by decide⟩
  · intro S f
    cases S <;> cases f <;> decide
  · intro S
    cases S <;> decide

/-- Two flags share a bit only when they are the same flag. -/
theorem Flag.mask_and_mask (x f : Flag) : x.mask &&& f.mask ≠ 0 ↔ x = f := by
  cases x <;> cases f <;> decide

/-- No flag reaches the software bits. -/
theorem Flag.mask_and_soft (x : Flag) : x.mask &&& PTE_SOFT = 0 := by
  cases x <;> decide

theorem lor_eq_zero_iff (a b : Nat) : a ||| b = 0 ↔ a = 0 ∧ b = 0 := by
  constructor
  · intro h
    have ha : a = 0 := by
      apply Nat.eq_of_testBit_eq
      intro i
      have := congrArg (fun n => Nat.testBit n i) h
      simp only [Nat.testBit_or, Nat.zero_testBit, Bool.or_eq_false_iff] at this
      simpa using this.1
    have hb : b = 0 := by
      apply Nat.eq_of_testBit_eq
      intro i
      have := congrArg (fun n => Nat.testBit n i) h
      simp only [Nat.testBit_or, Nat.zero_testBit, Bool.or_eq_false_iff] at this
      simpa using this.2
    exact ⟨ha, hb⟩
  · rintro ⟨rfl, rfl⟩
    rfl

theorem lor_land_distrib (a b c : Nat) : (a ||| b) &&& c = (a &&& c) ||| (b &&& c) := by
  apply Nat.eq_of_testBit_eq
  intro i
  rw [Nat.testBit_and, Nat.testBit_or, Nat.testBit_or, Nat.testBit_and, Nat.testBit_and]
  cases a.testBit i <;> cases b.testBit i <;> cases c.testBit i <;> rfl

/-- C10: the eight flags are the powers of two `2^0 .. 2^7` in the order V, R, W, X, U, G,
A, D, and `PTE_SOFT` is bits 8-9 (`0x300`); so for every collection `S` of flags and every
flag `f`, `((OR of S) & f) != 0` iff `f` is in `S`, and `(OR of S) & PTE_SOFT == 0`. -/
theorem C10_flag_membership_exact :
    [PTE_V, PTE_R, PTE_W, PTE_X, PTE_U, PTE_G, PTE_A, PTE_D]
      = (List.range 8).map (fun i => 2 ^ i) ∧
    [PTE_V, PTE_R, PTE_W, PTE_X, PTE_U, PTE_G, PTE_A, PTE_D].Nodup ∧
    PTE_SOFT = 2 ^ 8 ||| 2 ^ 9 ∧ PTE_SOFT = 0x300 ∧
    ∀ (S : List Flag) (f : Flag),
      (orFlags S &&& f.mask ≠ 0 ↔ f ∈ S) ∧ orFlags S &&& PTE_SOFT = 0 := by
  refine ⟨by decide, by decide, by decide, by decide, ?_⟩
  intro S f
  induction S with
  | nil => exact ⟨by simp [orFlags], by simp [orFlags]⟩
  | cons x xs ih =>
    obtain ⟨ih1, ih2⟩ := ih
    constructor
    · rw [orFlags, lor_land_distrib, Ne, lor_eq_zero_iff, List.mem_cons]
      constructor
      · intro h
        by_cases hx : x.mask &&& f.mask = 0
        · exact Or.inr (ih1.mp (fun h0 => h ⟨hx, h0⟩))
        · exact Or.inl ((Flag.mask_and_mask x f).mp hx).symm
      · rintro (rfl | hmem) ⟨h1, h2⟩
        · exact (Flag.mask_and_mask f f).mpr rfl h1
        · exact ih1.mpr hmem h2
    · rw [orFlags, lor_land_distrib, Flag.mask_and_soft, ih2]
      rfl

/-! ## Concrete addresses, the page number and out-of-range composition -/

/-- C11 (counterexample): at `va = 0x0000004020001000` the Sv39 extractors do not return
`vpn2 = 0, vpn1 = 1, vpn0 = 32`, and `SV39_PGADDR(0, 1, 32, 0)` is `0x220000`, not `va`. -/
theorem C11_sv39_example_indices_differ :
    SV39_VPN2 0x0000004020001000 ≠ 0 ∧ SV39_VPN1 0x0000004020001000 ≠ 1 ∧
    SV39_VPN0 0x0000004020001000 ≠ 32 ∧
    SV39_PGADDR 0 1 32 0 = 0x220000 ∧ SV39_PGADDR 0 1 32 0 ≠ 0x0000004020001000 := by
  decide

/-- C11 (amended): the example with its indices kept and its address put right. For
`va = 0x220000`, `SV39_VPN2(va) == 0`, `SV39_VPN1(va) == 1`, `SV39_VPN0(va) == 32` and
`PGOFF(va) == 0`, and `SV39_PGADDR(0, 1, 32, 0) == 0x220000`. The largest shifted part is
`1 << 21`, so the composition has the same value for `int` and for `uintptr_t` arguments. -/
theorem C11_sv39_example :
    SV39_VPN2 0x220000 = 0 ∧ SV39_VPN1 0x220000 = 1 ∧
    SV39_VPN0 0x220000 = 32 ∧ PGOFF 0x220000 = 0 ∧
    SV39_PGADDR 0 1 32 0 = 0x220000 := by
  decide

theorem PPN_eq (la : Nat) : PPN la = la % 2 ^ 64 / 2 ^ 12 := by
  simp only [PPN, toUintptr, XLEN, PTXSHIFT, Nat.shiftRight_eq_div_pow]

/-- The combined index `(PDX(va) << 10) | PTX(va)` is the 20-bit field above the offset. -/
theorem combined_index_eq (va : Nat) :
    shl (PDX va) 10 ||| PTX va = va % 2 ^ 64 / 2 ^ 12 % 2 ^ 20 := by
  have hd : PDX va < 1024 := by rw [PDX_eq]; omega
  have ht : PTX va < 1024 := by rw [PTX_eq]; omega
  have e : shl (PDX va) 10 = PDX va * 2 ^ 10 := by
    unfold shl
    rw [Nat.shiftLeft_eq]
    simp only [XLEN]
    omega
  rw [e, lor_eq_add_of_dvd (k := 10) (Dvd.intro_left (PDX va) rfl) (by omega), PDX_eq, PTX_eq]
  omega

/-- C12 (counterexample): at the 64-bit word `va = 0x100000000` the page number is
`0x100000` while the combined directory+table index is 0. -/
theorem C12_ppn_differs_above_32_bits :
    0x100000000 < 2 ^ XLEN ∧ PPN 0x100000000 = 0x100000 ∧
    shl (PDX 0x100000000) 10 ||| PTX 0x100000000 = 0 ∧
    PPN 0x100000000 ≠ shl (PDX 0x100000000) 10 ||| PTX 0x100000000 := by
  decide

/-- C12 (amended): for every `va` below `2 ^ 32`, the addresses of the 10+10+12 bit layout
the header draws, `PPN(va) == (PDX(va) << 10) | PTX(va)`. -/
theorem C12_ppn_is_combined_index (va : Nat) (h : va < 2 ^ 32) :
    PPN va = shl (PDX va) 10 ||| PTX va := by
  rw [combined_index_eq, PPN_eq]
  omega

/-- C12 (witness): the amended statement at `va = 0x00403000`, page number `0x403`. -/
theorem C12_ppn_is_combined_index_witness :
    0x00403000 < 2 ^ 32 ∧ PPN 0x00403000 = shl (PDX 0x00403000) 10 ||| PTX 0x00403000 :=
  ⟨by decide, C12_ppn_is_combined_index 0x00403000 (by decide)⟩

/-- C13: out-of-range composition does not fail but corrupts a neighbouring field.
`PGADDR` yields a word for every triple of inputs, and there are `d < 1024`, `t >= 1024`,
`o < 4096` with `PDX(PGADDR(d, t, o)) != d`: `d = 0, t = 1024, o = 0` gives directory
index 1. -/
theorem C13_out_of_range_table_index_corrupts :
    (∀ d t o : Nat, PGADDR d t o < 2 ^ XLEN) ∧
    (∃ d t o : Nat, d < 1024 ∧ 1024 ≤ t ∧ o < 4096 ∧ PDX (PGADDR d t o) ≠ d) ∧
    PGADDR 0 1024 0 = 0x400000 ∧ PDX (PGADDR 0 1024 0) = 1 := by
  refine ⟨?_, ⟨0, 1024, 0, by decide⟩, by decide, by decide⟩
  intro d t o
  unfold PGADDR toUintptr
  exact Nat.mod_lt _ (Nat.pos_pow_of_pos _ (by decide))

/-! ## Physical addresses read from entries -/

/-- C14: Sv32 entries reach a 34-bit physical space without loss. For every 32-bit entry
`pte`, `PTE_ADDR(pte)` is exactly `(pte >> 10) * 4096` and is below `2 ^ 34`; and
`PDE_ADDR(pde) == PTE_ADDR(pde)` for every `pde`. -/
theorem C14_sv32_entry_address_exact (pte : Nat) (h : pte < 2 ^ 32) :
    PTE_ADDR pte = (pte >>> 10) * 4096 ∧ PTE_ADDR pte < 2 ^ 34 ∧
    ∀ pde : Nat, PDE_ADDR pde = PTE_ADDR pde := by
  refine ⟨?_, ?_, fun _ => rfl⟩
  · rw [PTE_ADDR_eq, Nat.shiftRight_eq_div_pow]
    omega
  · rw [PTE_ADDR_eq]
    omega

/-- C14 (witness): the all-ones 32-bit entry `0xFFFFFFFF` has the address `0x3FFFFF000`,
which uses bits 32 and 33. -/
theorem C14_sv32_entry_address_exact_witness :
    0xFFFFFFFF < 2 ^ 32 ∧ PTE_ADDR 0xFFFFFFFF = 0x3FFFFF000 ∧
    (PTE_ADDR 0xFFFFFFFF = (0xFFFFFFFF >>> 10) * 4096 ∧ PTE_ADDR 0xFFFFFFFF < 2 ^ 34 ∧
      ∀ pde : Nat, PDE_ADDR pde = PTE_ADDR pde) :=
  ⟨by decide, by decide, C14_sv32_entry_address_exact 0xFFFFFFFF (by decide)⟩

/-- C15 (the code at the failing input): the Sv39 entry with frame number `2 ^ 43` and
`READ_WRITE`, `0x20000000000007`, is below `2 ^ 54`, yet `SV39_PTE_ADDR` returns `2 ^ 56`,
which is not below `2 ^ 56`; `PTE_ADDR` on the same entry returns `2 ^ 55`. -/
theorem C15_sv39_pte_addr_reaches_bit_56 :
    shl (2 ^ 43) SV39_PTE_PPN_SHIFT ||| READ_WRITE = 0x20000000000007 ∧
    0x20000000000007 < 2 ^ 54 ∧
    SV39_PTE_ADDR 0x20000000000007 = 2 ^ 56 ∧
    ¬ (SV39_PTE_ADDR 0x20000000000007 < 2 ^ 56) ∧
    PTE_ADDR 0x20000000000007 = 2 ^ 55 := by
  decide

/-- C16: exact effect of Scheme32 decompose-then-compose. For every word `va`,
`PGADDR(PDX(va), PTX(va), PGOFF(va)) == va & 0xFFFFFFFF`, that is `va mod 2 ^ 32`; so the
recomposition returns `va` itself if and only if `va < 2 ^ 32`. -/
theorem C16_recompose32_exact (va : Nat) :
    PGADDR (PDX va) (PTX va) (PGOFF va) = va &&& 0xFFFFFFFF ∧
    PGADDR (PDX va) (PTX va) (PGOFF va) = va % 2 ^ 32 ∧
    (PGADDR (PDX va) (PTX va) (PGOFF va) = va ↔ va < 2 ^ 32) := by
  have hm : va &&& 0xFFFFFFFF = va % 2 ^ 32 := Nat.and_pow_two_sub_one_eq_mod va 32
  rw [PGADDR_decompose, hm]
  refine ⟨rfl, rfl, ?_⟩
  omega

/-- C17: exact effect of Scheme39 decompose-then-compose. For every word `va`,
`SV39_PGADDR(SV39_VPN2(va), SV39_VPN1(va), SV39_VPN0(va), PGOFF(va)) == va & (2^39 - 1)`;
so the recomposition returns `va` itself if and only if `va < 2 ^ 39`. -/
theorem C17_recompose39_exact (va : Nat) :
    SV39_PGADDR (SV39_VPN2 va) (SV39_VPN1 va) (SV39_VPN0 va) (PGOFF va)
      = va &&& (2 ^ 39 - 1) ∧
    (SV39_PGADDR (SV39_VPN2 va) (SV39_VPN1 va) (SV39_VPN0 va) (PGOFF va) = va
      ↔ va < 2 ^ 39) := by
  rw [SV39_PGADDR_decompose, Nat.and_pow_two_sub_one_eq_mod]
  refine ⟨rfl, ?_⟩
  omega

/-- C18: on in-range fields the Sv39 extractors invert `SV39_PGADDR`. For `v2, v1, v0 < 512`
and `o < 4096`, with `a = SV39_PGADDR(v2, v1, v0, o)`: `SV39_VPN2(a) == v2`,
`SV39_VPN1(a) == v1`, `SV39_VPN0(a) == v0`, `PGOFF(a) == o`, and `a < 2 ^ 39`. -/
theorem C18_extractors_invert_sv39_pgaddr (v2 v1 v0 o : Nat) (h2 : v2 < 512)
    (h1 : v1 < 512) (h0 : v0 < 512) (ho : o < 4096) :
    SV39_VPN2 (SV39_PGADDR v2 v1 v0 o) = v2 ∧ SV39_VPN1 (SV39_PGADDR v2 v1 v0 o) = v1 ∧
    SV39_VPN0 (SV39_PGADDR v2 v1 v0 o) = v0 ∧ PGOFF (SV39_PGADDR v2 v1 v0 o) = o ∧
    SV39_PGADDR v2 v1 v0 o < 2 ^ 39 := by
  rw [SV39_PGADDR_eq h2 h1 h0 ho, SV39_VPN2_eq, SV39_VPN1_eq, SV39_VPN0_eq, PGOFF_eq]
  omega

/-- C18 (witness): the fields 256, 256, 1, 0 compose to `0x4020001000` and are read back. -/
theorem C18_extractors_invert_sv39_pgaddr_witness :
    SV39_PGADDR 256 256 1 0 = 0x4020001000 ∧
    (SV39_VPN2 (SV39_PGADDR 256 256 1 0) = 256 ∧ SV39_VPN1 (SV39_PGADDR 256 256 1 0) = 256 ∧
      SV39_VPN0 (SV39_PGADDR 256 256 1 0) = 1 ∧ PGOFF (SV39_PGADDR 256 256 1 0) = 0 ∧
      SV39_PGADDR 256 256 1 0 < 2 ^ 39) :=
  ⟨by decide, C18_extractors_invert_sv39_pgaddr 256 256 1 0 (by decide) (by decide)
    (by decide) (by decide)⟩

/-- C19: entry addresses are always page-aligned. For every word `pte`,
`PGOFF(PTE_ADDR(pte)) == 0` and `PGOFF(SV39_PTE_ADDR(pte)) == 0`: both results are
multiples of `PGSIZE = 4096`, whatever the flag bits of `pte` are. -/
theorem C19_entry_addresses_page_aligned (pte : Nat) :
    PGOFF (PTE_ADDR pte) = 0 ∧ PGOFF (SV39_PTE_ADDR pte) = 0 ∧
    PGSIZE ∣ PTE_ADDR pte ∧ PGSIZE ∣ SV39_PTE_ADDR pte := by
  have a : PTE_ADDR pte % 4096 = 0 := by rw [PTE_ADDR_eq]; omega
  have b : SV39_PTE_ADDR pte % 4096 = 0 := by rw [SV39_PTE_ADDR_eq]; omega
  refine ⟨?_, ?_, Nat.dvd_of_mod_eq_zero a, Nat.dvd_of_mod_eq_zero b⟩
  · rw [PGOFF_eq]; omega
  · rw [PGOFF_eq]; omega

/-- C20 (the code at the failing input): the entries `0x000` and `0x200` agree on every bit
at or above `SV39_PTE_PPN_SHIFT` and differ only in bit 9, one of the `PTE_SOFT` bits, yet
`SV39_PTE_ADDR` gives them the different addresses `0` and `0x1000`; `PTE_ADDR` gives both
the address `0`. -/
theorem C20_sv39_pte_addr_sees_soft_bit :
    0x000 >>> SV39_PTE_PPN_SHIFT = 0x200 >>> SV39_PTE_PPN_SHIFT ∧
    0x200 &&& PTE_SOFT = 0x200 ∧
    SV39_PTE_ADDR 0x000 = 0 ∧ SV39_PTE_ADDR 0x200 = 0x1000 ∧
    SV39_PTE_ADDR 0x000 ≠ SV39_PTE_ADDR 0x200 ∧
    PTE_ADDR 0x000 = PTE_ADDR 0x200 := by
  decide

end Mmu
